import Mathlib

/-!
Verification of the volumetric fog raymarching core of `three-volumetric-pass`.

The core algorithm lives in the GLSL fragment shader (`volumetric.frag`,
`src/unnamed/part_000`, lines 1-295).  We embed it shallowly over `ℝ`:
GLSL floats become real numbers (the claims about this code are phrased in
exact arithmetic), `vec3`/`vec4` become record types, the 3D noise texture and
the blue-noise texture become function parameters (they are external data
filled with random bytes at runtime), and the uniform block becomes a record
`FogParams`.

Notes on faithfulness:
* The shader is compiled with `DO_LIGHTING 0`, so the lighting path of
  `computeColor` and the light/ambient uniforms are dead code and are omitted.
* The `gradient` in/out parameter is never assigned by the shader
  (`sampleFogDensity` has a `TODO: compute gradient` and `computeColor`
  only reads it on the disabled lighting path), so it is omitted.
* `texelFetch(blueNoise, screenCoord % blueNoiseResolution, 0).r` is modelled
  by passing the fetched scalar `blueNoiseSample` directly; the
  `blueNoiseResolution` uniform only indexes that fetch.
* GLSL `pow` is real exponentiation; we model it with `Real.rpow` (written
  `^` on real exponents).  GLSL leaves `pow` undefined for zero base and
  non-positive exponent, which is why positivity hypotheses on the exponent
  uniforms appear in theorems that evaluate `pow` at base `0`.
* Division by zero is total (`x / 0 = 0`) in Lean while GLSL produces
  infinities; the theorems below only ever evaluate the embedded divisions
  at points where the divisor is proved non-zero on every executed path,
  mirroring the shader.
-/

noncomputable section

/-- GLSL `vec3`. -/
structure Vec3 where
  x : ℝ
  y : ℝ
  z : ℝ
  deriving DecidableEq

/-- GLSL `vec4`. -/
structure Vec4 where
  x : ℝ
  y : ℝ
  z : ℝ
  w : ℝ
  deriving DecidableEq

namespace Vec3

instance : Add Vec3 := ⟨fun a b => ⟨a.x + b.x, a.y + b.y, a.z + b.z⟩⟩
instance : Sub Vec3 := ⟨fun a b => ⟨a.x - b.x, a.y - b.y, a.z - b.z⟩⟩
instance : SMul ℝ Vec3 := ⟨fun t v => ⟨t * v.x, t * v.y, t * v.z⟩⟩

end Vec3

/-- GLSL `clamp(x, lo, hi) = min(max(x, lo), hi)`. -/
def clampR (x lo hi : ℝ) : ℝ := min (max x lo) hi

/-- GLSL `smoothstep(edge0, edge1, x)`. -/
def smoothstep (edge0 edge1 x : ℝ) : ℝ :=
  let t := clampR ((x - edge0) / (edge1 - edge0)) 0 1
  t * t * (3 - 2 * t)

/-- GLSL `mix(a, b, t) = a*(1-t) + b*t` on scalars. -/
def mixR (a b t : ℝ) : ℝ := a * (1 - t) + b * t

/-- GLSL `mix` on `vec3`, componentwise. -/
def mixV3 (a b : Vec3) (t : ℝ) : Vec3 := ⟨mixR a.x b.x t, mixR a.y b.y t, mixR a.z b.z t⟩

/-- GLSL `length(v) = sqrt(v.x^2 + v.y^2 + v.z^2)`. -/
def lengthV (v : Vec3) : ℝ := Real.sqrt (v.x ^ 2 + v.y ^ 2 + v.z ^ 2)

/-- GLSL `normalize(v) = v / length(v)`. -/
def normalizeV (v : Vec3) : Vec3 := (1 / lengthV v) • v

/-- GLSL `clamp` applied componentwise to a `vec4`, as in the shader's final
`clamp(vec4(accumulatedColor, density), 0., 1.)`. -/
def clampV4 (v : Vec4) (lo hi : ℝ) : Vec4 :=
  ⟨clampR v.x lo hi, clampR v.y lo hi, clampR v.z lo hi, clampR v.w lo hi⟩

/-- The shader's uniform parameter block (`volumetric.frag` lines 26-52).
The lighting uniforms are omitted because `DO_LIGHTING` is `0`;
`blueNoiseResolution` is omitted because the blue-noise texel fetch is
modelled by its fetched value. -/
structure FogParams where
  fogMinY : ℝ
  fogMaxY : ℝ
  baseRaymarchStepCount : ℕ
  maxRaymarchStepCount : ℕ
  baseMaxRayLength : ℝ
  minStepLength : ℝ
  maxDensity : ℝ
  fogColorHighDensity : Vec3
  fogColorLowDensity : Vec3
  fogFadeOutPow : ℝ
  fogFadeOutRangeY : ℝ
  fogDensityMultiplier : ℝ
  heightFogStartY : ℝ
  heightFogEndY : ℝ
  heightFogFactor : ℝ
  noiseBias : ℝ
  noisePow : ℝ
  noiseMovementPerSecondX : ℝ
  noiseMovementPerSecondY : ℝ
  postDensityMultiplier : ℝ
  postDensityPow : ℝ
  globalScale : ℝ
  curTimeSeconds : ℝ

/-- `sampleFogFromNoise` (line 64): `texture(noiseTexture, worldPos * 0.006).r * 2. - 1.`.
The 3D texture lookup is abstracted by `noiseTex`. -/
def sampleFogFromNoise (noiseTex : Vec3 → ℝ) (worldPos : Vec3) : ℝ :=
  noiseTex ((0.006 : ℝ) • worldPos) * 2 - 1

/-- `LODWeights` table (line 69). -/
def LODWeights : Fin 6 → ℝ
  | 0 => 1
  | 1 => 0.3
  | 2 => 0.2
  | 3 => 0.1
  | 4 => 0.06
  | 5 => 0.035

/-- `LODScales` table (line 70). -/
def LODScales : Fin 6 → ℝ
  | 0 => 0.1
  | 1 => 0.3
  | 2 => 0.6
  | 3 => 1.2
  | 4 => 2.2
  | 5 => 4.1

/-- `sampleFogDensityLOD` (lines 72-79).  The `inout totalSampledMagnitude`
accumulator is written but never read by any caller (`sampleFogDensity`
discards it), so it is dropped here. -/
def sampleFogDensityLOD (P : FogParams) (noiseTex : Vec3 → ℝ) (worldPos : Vec3)
    (lod : Fin 6) : ℝ :=
  sampleFogFromNoise noiseTex ((LODScales lod * P.globalScale) • worldPos) * LODWeights lod

/-- `computeFadeOutYFactor` (lines 81-83):
`1. - pow(smoothstep(fogMaxY - fogFadeOutRangeY, fogMaxY, y), fogFadeOutPow)`. -/
def computeFadeOutYFactor (P : FogParams) (y : ℝ) : ℝ :=
  1 - smoothstep (P.fogMaxY - P.fogFadeOutRangeY) P.fogMaxY y ^ P.fogFadeOutPow

/-- `sampleFogDensity` (lines 85-113), without the never-assigned `gradient`
out parameter. -/
def sampleFogDensity (P : FogParams) (noiseTex : Vec3 → ℝ) (worldPos : Vec3) : ℝ :=
  let wp := worldPos +
    P.curTimeSeconds • (⟨P.noiseMovementPerSecondX, 0, P.noiseMovementPerSecondY⟩ : Vec3)
  let noise := P.noiseBias + ∑ octave : Fin 6, sampleFogDensityLOD P noiseTex wp octave
  let noise := noise * 0.5 + 0.5
  let noise := clampR noise (-1) 1
  let noise := noise ^ P.noisePow
  let noise :=
    if wp.y ≤ P.heightFogEndY then
      noise + (1 - smoothstep P.heightFogStartY P.heightFogEndY wp.y) * P.heightFogFactor
    else noise
  noise * computeFadeOutYFactor P wp.y

/-- `intersectRayXZPlane` (lines 118-120). -/
def intersectRayXZPlane (rayOrigin rayDirection : Vec3) (planeDistance : ℝ) : ℝ :=
  -(rayOrigin.y - planeDistance) / rayDirection.y

/-- `startPos + rayDir * t`, the point the shader clamps an endpoint to. -/
def rayAt (origin dir : Vec3) (t : ℝ) : Vec3 := origin + t • dir

/-- The body of `clipRayEndpoints` after the early-out (lines 129-149):
the four sequential plane clamps.  Later clamps use the already-updated
endpoints, exactly as the `inout` mutation does in the shader. -/
def clipSegment (P : FogParams) (startPos endPos : Vec3) : Vec3 × Vec3 :=
  let rayDir := normalizeV (endPos - startPos)
  let s1 := if startPos.y < P.fogMinY then
      rayAt startPos rayDir (intersectRayXZPlane startPos rayDir P.fogMinY)
    else startPos
  let e1 := if endPos.y < P.fogMinY then
      rayAt s1 rayDir (intersectRayXZPlane s1 rayDir P.fogMinY)
    else endPos
  let e2 := if e1.y > P.fogMaxY then
      rayAt s1 rayDir (intersectRayXZPlane s1 rayDir P.fogMaxY)
    else e1
  let s2 := if s1.y > P.fogMaxY then
      rayAt s1 rayDir (intersectRayXZPlane s1 rayDir P.fogMaxY)
    else s1
  (s2, e2)

/-- `clipRayEndpoints` (lines 122-150).  Returns the updated
`(startPos, endPos)` pair; the early-out collapses the segment by assigning
`startPos = endPos`. -/
def clipRayEndpoints (P : FogParams) (startPos endPos : Vec3) : Vec3 × Vec3 :=
  if (startPos.y < P.fogMinY ∧ endPos.y < P.fogMinY) ∨
      (startPos.y > P.fogMaxY ∧ endPos.y > P.fogMaxY) then
    (endPos, endPos)
  else
    clipSegment P startPos endPos

/-- Whether `clipRayEndpoints` evaluates `intersectRayXZPlane` (and hence
divides by `rayDir.y`) on the executed path: true iff the early-out is not
taken and at least one of the four clamp branches fires.  The branch
conditions are exactly those of `clipSegment`. -/
def clipComputesIntersection (P : FogParams) (startPos endPos : Vec3) : Prop :=
  ¬((startPos.y < P.fogMinY ∧ endPos.y < P.fogMinY) ∨
      (startPos.y > P.fogMaxY ∧ endPos.y > P.fogMaxY)) ∧
    (let rayDir := normalizeV (endPos - startPos)
     let s1 := if startPos.y < P.fogMinY then
         rayAt startPos rayDir (intersectRayXZPlane startPos rayDir P.fogMinY)
       else startPos
     let e1 := if endPos.y < P.fogMinY then
         rayAt s1 rayDir (intersectRayXZPlane s1 rayDir P.fogMinY)
       else endPos
     startPos.y < P.fogMinY ∨ endPos.y < P.fogMinY ∨ e1.y > P.fogMaxY ∨ s1.y > P.fogMaxY)

/-- `computeColor` (lines 152-171) with `DO_LIGHTING 0`: only the base color
blend is live. -/
def computeColor (P : FogParams) (curPos : Vec3) (density : ℝ) : Vec3 :=
  let _ := curPos
  mixV3 P.fogColorLowDensity P.fogColorHighDensity (clampR (density * 12) 0 1)

/-- `sampleOneStep` (lines 173-193).  Returns the updated
`(accumulatedColor, accumulatedDensity)` pair (the two `inout` accumulators). -/
def sampleOneStep (P : FogParams) (noiseTex : Vec3 → ℝ) (totalDistance stepSize : ℝ)
    (startPos rayDir : Vec3) (accumulatedColor : Vec3) (accumulatedDensity : ℝ) :
    Vec3 × ℝ :=
  let curPos := startPos + totalDistance • rayDir
  let rawDensity := sampleFogDensity P noiseTex curPos
  let density := rawDensity * stepSize * P.fogDensityMultiplier
  if rawDensity > 0.01 then
    let color := computeColor P curPos rawDensity
    let remainingOpacity := 1 - accumulatedDensity
    (accumulatedColor + (density * remainingOpacity) • color,
      accumulatedDensity + density * remainingOpacity)
  else
    (accumulatedColor, accumulatedDensity)

/-- The mutable loop state of `march` (lines 232-236): accumulated density
(the shader's `density` local), distance travelled, iteration counter and
accumulated color. -/
structure MarchState where
  density : ℝ
  totalDistance : ℝ
  totalIters : ℕ
  accumulatedColor : Vec3

/-- The per-iteration step length (lines 245-248):
`max(baseStepLength, minStepLength) + jitter * 0.2`.  It does not depend on
the loop state, so every iteration of a given ray uses the same value. -/
def stepLengthOf (P : FogParams) (baseStepLength jitter : ℝ) : ℝ :=
  max baseStepLength P.minStepLength + jitter * 0.2

/-- `jitter = (blueNoiseSample - 0.5) * 0.1` (line 229). -/
def jitterOf (blueNoiseSample : ℝ) : ℝ := (blueNoiseSample - 0.5) * 0.1

/-- One iteration of the `while` loop of `march` (lines 243-251):
increment `totalIters`, compute the step length, run `sampleOneStep`,
advance `totalDistance`. -/
def marchBody (P : FogParams) (noiseTex : Vec3 → ℝ) (startPos rayDir : Vec3)
    (baseStepLength jitter : ℝ) (st : MarchState) : MarchState :=
  let stepLength := stepLengthOf P baseStepLength jitter
  let cd := sampleOneStep P noiseTex st.totalDistance stepLength startPos rayDir
    st.accumulatedColor st.density
  { density := cd.2
    totalDistance := st.totalDistance + stepLength
    totalIters := st.totalIters + 1
    accumulatedColor := cd.1 }

/-- The `while (totalDistance < rayLength)` loop of `march` (lines 237-257).
Returns the final state together with a flag that is `true` exactly when the
iteration-cap safety valve fired (the shader then returns the sentinel
`vec4(1., 1., 0., 1.)`).  The loop terminates because `totalIters` increases
by one per iteration and the cap check bounds it. -/
def marchLoop (P : FogParams) (noiseTex : Vec3 → ℝ) (startPos rayDir : Vec3)
    (rayLength baseStepLength jitter : ℝ) (st : MarchState) : MarchState × Bool :=
  if st.totalDistance < rayLength then
    if _hIter : st.totalIters > P.maxRaymarchStepCount then
      (st, true)
    else
      let st' := marchBody P noiseTex startPos rayDir baseStepLength jitter st
      if st'.density ≥ P.maxDensity - 0.01 then
        (st', false)
      else
        marchLoop P noiseTex startPos rayDir rayLength baseStepLength jitter st'
  else
    (st, false)
termination_by P.maxRaymarchStepCount + 1 - st.totalIters
decreasing_by
  simp only [marchBody]
  omega

/-- Everything `march` (lines 195-276) computes, with the intermediate
quantities of its init phase and the final loop state exposed alongside the
returned color, so that theorems can speak about them.  On the collapsed
early-out path the shader returns before computing ray length or running the
loop; the corresponding fields are filled with `0` / the initial state there. -/
structure MarchOutcome where
  clippedStart : Vec3
  clippedEnd : Vec3
  maxRayLength : ℝ
  rayLength : ℝ
  state : MarchState
  capped : Bool
  result : Vec4

/-- `march` (lines 195-276), instrumented.  `blueNoiseSample` stands for
`texelFetch(blueNoise, screenCoord % blueNoiseResolution, 0).r`. -/
def marchRun (P : FogParams) (noiseTex : Vec3 → ℝ) (blueNoiseSample : ℝ)
    (startPos endPos : Vec3) : MarchOutcome :=
  let c := clipRayEndpoints P startPos endPos
  let s := c.1
  let e := c.2
  if s = e then
    ⟨s, e, 0, 0, ⟨0, 0, 0, ⟨0, 0, 0⟩⟩, false, ⟨0, 0, 0, 0⟩⟩
  else
    let rayDir := normalizeV (e - s)
    let rayLength0 := lengthV (e - s)
    let maxRayLength := P.baseMaxRayLength + min (rayLength0 * 0.2) 1500
    let rayLength := if rayLength0 > maxRayLength then maxRayLength else rayLength0
    let baseStepLength := rayLength / (P.baseRaymarchStepCount : ℝ)
    let jitter := jitterOf blueNoiseSample
    let sJ := s + jitter • rayDir
    let out := marchLoop P noiseTex sJ rayDir rayLength baseStepLength jitter
      ⟨0, 0, 0, ⟨0, 0, 0⟩⟩
    let st := out.1
    if out.2 then
      ⟨s, e, maxRayLength, rayLength, st, true, ⟨1, 1, 0, 1⟩⟩
    else
      let densityF := (st.density * P.postDensityMultiplier) ^ P.postDensityPow
      ⟨s, e, maxRayLength, rayLength, st, false,
        clampV4 ⟨st.accumulatedColor.x, st.accumulatedColor.y, st.accumulatedColor.z,
          densityF⟩ 0 1⟩

/-- The `vec4` returned by `march`. -/
def march (P : FogParams) (noiseTex : Vec3 → ℝ) (blueNoiseSample : ℝ)
    (startPos endPos : Vec3) : Vec4 :=
  (marchRun P noiseTex blueNoiseSample startPos endPos).result

/-! ### Concrete configurations used to instantiate theorems

`noiseHalf` models a 3D noise texture whose red channel is `0.5` everywhere,
which makes every octave sample of `sampleFogFromNoise` equal to `0`.
`Pdefault` is the default uniform table of `VolumetricMaterial`
(`src/unnamed/part_000` lines 490-529).  `Pconst` replaces the noise shaping
parameters by values that make `sampleFogDensity` identically `1` on the
`y = 0` plane (bias `1`, `pow` `1`, height fog off, fade-out far away), the
setting the spec describes as "a DensityField configured to return a positive
constant everywhere inside the slab". -/

/-- A noise texture that is `0.5` everywhere (octave samples become `0`). -/
def noiseHalf : Vec3 → ℝ := fun _ => 0.5

/-- The default uniform values of `VolumetricMaterial`. -/
def Pdefault : FogParams where
  fogMinY := -40
  fogMaxY := 4.4
  baseRaymarchStepCount := 80
  maxRaymarchStepCount := 400
  baseMaxRayLength := 300
  minStepLength := 0.2
  maxDensity := 1
  fogColorHighDensity := ⟨0.32, 0.35, 0.38⟩
  fogColorLowDensity := ⟨0.9, 0.9, 0.9⟩
  fogFadeOutPow := 1
  fogFadeOutRangeY := 1.5
  fogDensityMultiplier := 0.086
  heightFogStartY := -10
  heightFogEndY := 8
  heightFogFactor := 0.1852
  noiseBias := 0.485
  noisePow := 3
  noiseMovementPerSecondX := 1.2
  noiseMovementPerSecondY := 0.8
  postDensityMultiplier := 1.2
  postDensityPow := 1
  globalScale := 1
  curTimeSeconds := 0

/-- A configuration whose density field is identically `1` at `y = 0`:
noise bias `1` with exponent `1`, height fog contribution zeroed, fade-out
band far above the sampled region, no wind drift. -/
def Pconst : FogParams where
  fogMinY := -1000
  fogMaxY := 100
  baseRaymarchStepCount := 1
  maxRaymarchStepCount := 400
  baseMaxRayLength := 300
  minStepLength := 1
  maxDensity := 1
  fogColorHighDensity := ⟨0.32, 0.35, 0.38⟩
  fogColorLowDensity := ⟨0.9, 0.9, 0.9⟩
  fogFadeOutPow := 1
  fogFadeOutRangeY := 1
  fogDensityMultiplier := 0.5
  heightFogStartY := -2000
  heightFogEndY := -1000
  heightFogFactor := 0
  noiseBias := 1
  noisePow := 1
  noiseMovementPerSecondX := 0
  noiseMovementPerSecondY := 0
  postDensityMultiplier := 1
  postDensityPow := 1
  globalScale := 1
  curTimeSeconds := 0

/-- `Pconst` with a negative density multiplier (a configuration the shader
accepts; nothing validates the sign of `fogDensityMultiplier`). -/
def Pneg : FogParams := { Pconst with fogDensityMultiplier := -1 }

/-- `Pconst` with the iteration cap set to `0` and an inert density
multiplier. -/
def Pcap : FogParams := { Pconst with maxRaymarchStepCount := 0, fogDensityMultiplier := 0 }

/-- `Pconst` with `minStepLength = 0.2` (the shader default) and an inert
density multiplier. -/
def Pmin : FogParams := { Pconst with minStepLength := 0.2, fogDensityMultiplier := 0 }

/-- `Pconst` with the slab moved to `[0, 10]`, used to exercise the
long-ray-compensation formula on a ray that gets clipped. -/
def Pclip : FogParams := { Pconst with fogMinY := 0, fogMaxY := 10 }

/-! ### Componentwise arithmetic lemmas -/

namespace Vec3

@[simp] theorem add_x (a b : Vec3) : (a + b).x = a.x + b.x := rfl
@[simp] theorem add_y (a b : Vec3) : (a + b).y = a.y + b.y := rfl
@[simp] theorem add_z (a b : Vec3) : (a + b).z = a.z + b.z := rfl
@[simp] theorem sub_x (a b : Vec3) : (a - b).x = a.x - b.x := rfl
@[simp] theorem sub_y (a b : Vec3) : (a - b).y = a.y - b.y := rfl
@[simp] theorem sub_z (a b : Vec3) : (a - b).z = a.z - b.z := rfl
@[simp] theorem smul_x (t : ℝ) (v : Vec3) : (t • v).x = t * v.x := rfl
@[simp] theorem smul_y (t : ℝ) (v : Vec3) : (t • v).y = t * v.y := rfl
@[simp] theorem smul_z (t : ℝ) (v : Vec3) : (t • v).z = t * v.z := rfl

@[simp] theorem mk_add_mk (a b c d e f : ℝ) :
    (⟨a, b, c⟩ + ⟨d, e, f⟩ : Vec3) = ⟨a + d, b + e, c + f⟩ := rfl

@[simp] theorem mk_sub_mk (a b c d e f : ℝ) :
    (⟨a, b, c⟩ - ⟨d, e, f⟩ : Vec3) = ⟨a - d, b - e, c - f⟩ := rfl

@[simp] theorem smul_mk (t a b c : ℝ) :
    (t • (⟨a, b, c⟩ : Vec3)) = ⟨t * a, t * b, t * c⟩ := rfl

@[simp] theorem zero_smul (v : Vec3) : (0 : ℝ) • v = ⟨0, 0, 0⟩ := by
  cases v
  simp

end Vec3

/-! ### Geometry helper lemmas -/

theorem rayAt_y (o d : Vec3) (t : ℝ) : (rayAt o d t).y = o.y + t * d.y := by
  simp [rayAt]

/-- The clamped point produced from `intersectRayXZPlane` lies exactly on the
target plane whenever the direction has a non-zero `y` component. -/
theorem rayAt_intersect_y (o d : Vec3) (p : ℝ) (h : d.y ≠ 0) :
    (rayAt o d (intersectRayXZPlane o d p)).y = p := by
  rw [rayAt_y, intersectRayXZPlane]
  field_simp

theorem lengthV_pos_of_y_ne_zero (v : Vec3) (h : v.y ≠ 0) : 0 < lengthV v := by
  unfold lengthV
  apply Real.sqrt_pos.mpr
  have hy : 0 < v.y ^ 2 := by positivity
  nlinarith [sq_nonneg v.x, sq_nonneg v.z]

theorem normalizeV_y (v : Vec3) : (normalizeV v).y = v.y / lengthV v := by
  simp [normalizeV]
  ring

/-- `normalize` keeps the sign structure of the `y` component: if the segment
has a vertical extent, so does the normalized direction. -/
theorem normalizeV_y_ne_zero (v : Vec3) (h : v.y ≠ 0) : (normalizeV v).y ≠ 0 := by
  rw [normalizeV_y]
  exact div_ne_zero h (ne_of_gt (lengthV_pos_of_y_ne_zero v h))

theorem lengthV_x_axis (a : ℝ) (h : 0 ≤ a) : lengthV ⟨a, 0, 0⟩ = a := by
  unfold lengthV
  rw [show (⟨a, 0, 0⟩ : Vec3).x ^ 2 + (⟨a, 0, 0⟩ : Vec3).y ^ 2 +
      (⟨a, 0, 0⟩ : Vec3).z ^ 2 = a ^ 2 by simp]
  exact Real.sqrt_sq h

theorem lengthV_y_axis (a : ℝ) (h : 0 ≤ a) : lengthV ⟨0, a, 0⟩ = a := by
  unfold lengthV
  rw [show (⟨0, a, 0⟩ : Vec3).x ^ 2 + (⟨0, a, 0⟩ : Vec3).y ^ 2 +
      (⟨0, a, 0⟩ : Vec3).z ^ 2 = a ^ 2 by simp]
  exact Real.sqrt_sq h

theorem normalizeV_x_axis (a : ℝ) (h : 0 < a) : normalizeV ⟨a, 0, 0⟩ = ⟨1, 0, 0⟩ := by
  unfold normalizeV
  rw [lengthV_x_axis a h.le]
  simp [Vec3.mk.injEq]
  field_simp

theorem normalizeV_y_axis (a : ℝ) (h : 0 < a) : normalizeV ⟨0, a, 0⟩ = ⟨0, 1, 0⟩ := by
  unfold normalizeV
  rw [lengthV_y_axis a h.le]
  simp [Vec3.mk.injEq]
  field_simp

/-- The early-out of `clipRayEndpoints`: a segment entirely below the bottom
plane or entirely above the top plane is collapsed onto its endpoint. -/
theorem clipRayEndpoints_early (P : FogParams) (s e : Vec3)
    (h : (s.y < P.fogMinY ∧ e.y < P.fogMinY) ∨ (s.y > P.fogMaxY ∧ e.y > P.fogMaxY)) :
    clipRayEndpoints P s e = (e, e) := by
  rw [clipRayEndpoints, if_pos h]

/-- A segment whose endpoints both lie inside the slab is returned unchanged
(every comparison in the clipper is strict). -/
theorem clipRayEndpoints_inrange (P : FogParams) (s e : Vec3)
    (hs0 : P.fogMinY ≤ s.y) (hs1 : s.y ≤ P.fogMaxY)
    (he0 : P.fogMinY ≤ e.y) (he1 : e.y ≤ P.fogMaxY) :
    clipRayEndpoints P s e = (s, e) := by
  rw [clipRayEndpoints, if_neg (by push_neg; constructor <;> intro h <;> linarith)]
  rw [clipSegment]
  simp only [if_neg (not_lt.mpr hs0), if_neg (not_lt.mpr he0),
    if_neg (not_lt.mpr he1), if_neg (not_lt.mpr hs1)]

/-- Clipping a degenerate (single-point) segment returns it unchanged. -/
theorem clipRayEndpoints_self (P : FogParams) (p : Vec3) :
    clipRayEndpoints P p p = (p, p) := by
  rcases lt_or_le p.y P.fogMinY with h | h
  · exact clipRayEndpoints_early P p p (Or.inl ⟨h, h⟩)
  · rcases le_or_lt p.y P.fogMaxY with h' | h'
    · exact clipRayEndpoints_inrange P p p h h' h h'
    · exact clipRayEndpoints_early P p p (Or.inr ⟨h', h'⟩)

/-- Characterisation of the sequential four-clamp body: when the early-out
did not apply (expressed by the two implications), the result is either a
collapsed segment or a segment whose endpoints both lie between the two
planes.  The case `fogMinY > fogMaxY` always collapses because the last two
clamps then move both endpoints to the same intersection point. -/
theorem clipSegment_characterization (P : FogParams) (s e : Vec3)
    (h1 : s.y < P.fogMinY → P.fogMinY ≤ e.y)
    (h2 : P.fogMaxY < s.y → e.y ≤ P.fogMaxY) :
    (clipSegment P s e).1 = (clipSegment P s e).2 ∨
      (P.fogMinY ≤ (clipSegment P s e).1.y ∧ (clipSegment P s e).1.y ≤ P.fogMaxY ∧
        P.fogMinY ≤ (clipSegment P s e).2.y ∧ (clipSegment P s e).2.y ≤ P.fogMaxY) := by
  set m := P.fogMinY with hm
  set M := P.fogMaxY with hM
  set d := normalizeV (e - s) with hd
  have hdy : s.y ≠ e.y → d.y ≠ 0 := by
    intro hne
    rw [hd]
    apply normalizeV_y_ne_zero
    simp only [Vec3.sub_y]
    exact sub_ne_zero.mpr (Ne.symm hne)
  set s1 := (if s.y < m then rayAt s d (intersectRayXZPlane s d m) else s) with hs1
  set e1 := (if e.y < m then rayAt s1 d (intersectRayXZPlane s1 d m) else e) with he1
  set e2 := (if e1.y > M then rayAt s1 d (intersectRayXZPlane s1 d M) else e1) with he2
  set s2 := (if s1.y > M then rayAt s1 d (intersectRayXZPlane s1 d M) else s1) with hs2
  have hseg : clipSegment P s e = (s2, e2) := rfl
  rw [hseg]
  dsimp only
  by_cases hA : s.y < m
  · have hmey : m ≤ e.y := h1 hA
    have hdy' : d.y ≠ 0 := hdy (by intro hc; rw [hc] at hA; linarith)
    rw [if_pos hA] at hs1
    have hs1y : s1.y = m := by rw [hs1]; exact rayAt_intersect_y _ _ _ hdy'
    rw [if_neg (not_lt.mpr hmey)] at he1
    by_cases hC : e1.y > M
    · rw [if_pos hC] at he2
      have he2y : e2.y = M := by rw [he2]; exact rayAt_intersect_y _ _ _ hdy'
      by_cases hD : s1.y > M
      · rw [if_pos hD] at hs2
        left; rw [hs2, he2]
      · rw [if_neg hD] at hs2
        have hmM : m ≤ M := by have := not_lt.mp hD; rw [hs1y] at this; exact this
        right
        refine ⟨?_, ?_, ?_, ?_⟩
        · rw [hs2, hs1y]
        · rw [hs2, hs1y]; exact hmM
        · rw [he2y]; exact hmM
        · rw [he2y]
    · rw [if_neg hC] at he2
      have heM : e.y ≤ M := by have := not_lt.mp hC; rwa [he1] at this
      by_cases hD : s1.y > M
      · exfalso; rw [hs1y] at hD; linarith
      · rw [if_neg hD] at hs2
        right
        refine ⟨?_, ?_, ?_, ?_⟩
        · rw [hs2, hs1y]
        · rw [hs2, hs1y]; linarith
        · rw [he2, he1]; exact hmey
        · rw [he2, he1]; exact heM
  · have hms : m ≤ s.y := not_lt.mp hA
    rw [if_neg hA] at hs1
    by_cases hB : e.y < m
    · have hdy' : d.y ≠ 0 := by
        apply hdy; intro hc; rw [hc] at hms; linarith
      rw [if_pos hB] at he1
      have he1y : e1.y = m := by rw [he1]; exact rayAt_intersect_y _ _ _ hdy'
      by_cases hC : e1.y > M
      · have hMm : M < m := by rwa [he1y] at hC
        rw [if_pos hC] at he2
        by_cases hD : s1.y > M
        · rw [if_pos hD] at hs2
          left; rw [hs2, he2]
        · exfalso
          have := not_lt.mp hD
          rw [hs1] at this
          linarith
      · rw [if_neg hC] at he2
        have hmM : m ≤ M := by have := not_lt.mp hC; rwa [he1y] at this
        by_cases hD : s1.y > M
        · rw [if_pos hD] at hs2
          have hs2y : s2.y = M := by rw [hs2]; exact rayAt_intersect_y _ _ _ hdy'
          right
          refine ⟨?_, ?_, ?_, ?_⟩
          · rw [hs2y]; exact hmM
          · rw [hs2y]
          · rw [he2, he1y]
          · rw [he2, he1y]; exact hmM
        · rw [if_neg hD] at hs2
          have hsM : s.y ≤ M := by have := not_lt.mp hD; rwa [hs1] at this
          right
          refine ⟨?_, ?_, ?_, ?_⟩
          · rw [hs2, hs1]; exact hms
          · rw [hs2, hs1]; exact hsM
          · rw [he2, he1y]
          · rw [he2, he1y]; exact hmM
    · have hme : m ≤ e.y := not_lt.mp hB
      rw [if_neg hB] at he1
      by_cases hC : e1.y > M
      · have heM' : M < e.y := by rwa [he1] at hC
        have hsM : s.y ≤ M := by
          by_contra hgt
          push_neg at hgt
          have := h2 hgt
          linarith
        have hdy' : d.y ≠ 0 := by
          apply hdy; intro hc; rw [hc] at hsM; linarith
        rw [if_pos hC] at he2
        have he2y : e2.y = M := by rw [he2]; exact rayAt_intersect_y _ _ _ hdy'
        have hDfalse : ¬s1.y > M := by rw [hs1]; exact not_lt.mpr hsM
        rw [if_neg hDfalse] at hs2
        right
        refine ⟨?_, ?_, ?_, ?_⟩
        · rw [hs2, hs1]; exact hms
        · rw [hs2, hs1]; exact hsM
        · rw [he2y]; linarith
        · rw [he2y]
      · rw [if_neg hC] at he2
        have heM : e.y ≤ M := by have := not_lt.mp hC; rwa [he1] at this
        by_cases hD : s1.y > M
        · have hsM' : M < s.y := by rwa [hs1] at hD
          have hdy' : d.y ≠ 0 := by
            apply hdy; intro hc; rw [hc] at hsM'; linarith
          rw [if_pos hD] at hs2
          have hs2y : s2.y = M := by rw [hs2]; exact rayAt_intersect_y _ _ _ hdy'
          right
          refine ⟨?_, ?_, ?_, ?_⟩
          · rw [hs2y]; linarith
          · rw [hs2y]
          · rw [he2, he1]; exact hme
          · rw [he2, he1]; exact heM
        · rw [if_neg hD] at hs2
          have hsM : s.y ≤ M := by have := not_lt.mp hD; rwa [hs1] at this
          right
          refine ⟨?_, ?_, ?_, ?_⟩
          · rw [hs2, hs1]; exact hms
          · rw [hs2, hs1]; exact hsM
          · rw [he2, he1]; exact hme
          · rw [he2, he1]; exact heM

/-- Characterisation of the full clipper: the output is a collapsed segment
or lies entirely within the slab. -/
theorem clipRayEndpoints_characterization (P : FogParams) (s e : Vec3) :
    (clipRayEndpoints P s e).1 = (clipRayEndpoints P s e).2 ∨
      (P.fogMinY ≤ (clipRayEndpoints P s e).1.y ∧
        (clipRayEndpoints P s e).1.y ≤ P.fogMaxY ∧
        P.fogMinY ≤ (clipRayEndpoints P s e).2.y ∧
        (clipRayEndpoints P s e).2.y ≤ P.fogMaxY) := by
  by_cases h : (s.y < P.fogMinY ∧ e.y < P.fogMinY) ∨ (s.y > P.fogMaxY ∧ e.y > P.fogMaxY)
  · rw [clipRayEndpoints_early P s e h]
    left; rfl
  · rw [clipRayEndpoints, if_neg h]
    push_neg at h
    exact clipSegment_characterization P s e h.1 h.2

/-! ### Claim C3 -/

/-- Claim C3: a ray whose endpoints both lie strictly below `fogMinY`, or
both strictly above `fogMaxY`, makes `march` return `vec4(0)`: black color
and zero opacity.  The early-out of `clipRayEndpoints` collapses the segment
and `march` hits its `startPos == endPos` shortcut. -/
theorem march_outside_slab_transparent (P : FogParams) (noiseTex : Vec3 → ℝ)
    (blueNoiseSample : ℝ) (s e : Vec3)
    (h : (s.y < P.fogMinY ∧ e.y < P.fogMinY) ∨ (s.y > P.fogMaxY ∧ e.y > P.fogMaxY)) :
    march P noiseTex blueNoiseSample s e = ⟨0, 0, 0, 0⟩ := by
  unfold march marchRun
  rw [clipRayEndpoints_early P s e h]
  simp

/-- Witness for C3: the default configuration with a segment entirely below
the `fogMinY = -40` plane. -/
theorem march_outside_slab_transparent_witness :
    march Pdefault noiseHalf 0.5 ⟨0, -50, 0⟩ ⟨3, -45, 2⟩ = ⟨0, 0, 0, 0⟩ :=
  march_outside_slab_transparent Pdefault noiseHalf 0.5 ⟨0, -50, 0⟩ ⟨3, -45, 2⟩
    (Or.inl (by norm_num [Pdefault]))

/-! ### Claim C7 -/

/-- Claim C7: for a horizontal segment (both endpoints at the same height)
the clipper never evaluates a plane-intersection parameter — no division by
`rayDir.y` happens on the executed path — and the segment is either collapsed
by the early-out or returned unchanged. -/
theorem clip_horizontal_ray_no_division (P : FogParams) (s e : Vec3)
    (hy : s.y = e.y) :
    ¬clipComputesIntersection P s e ∧
      (clipRayEndpoints P s e = (e, e) ∨ clipRayEndpoints P s e = (s, e)) := by
  by_cases hEarly : (s.y < P.fogMinY ∧ e.y < P.fogMinY) ∨
      (s.y > P.fogMaxY ∧ e.y > P.fogMaxY)
  · exact ⟨fun hc => hc.1 hEarly, Or.inl (clipRayEndpoints_early P s e hEarly)⟩
  · have h := hEarly
    push_neg at h
    have hm : P.fogMinY ≤ s.y := by
      by_contra hlt
      push_neg at hlt
      have := h.1 hlt
      rw [← hy] at this
      linarith
    have hM : s.y ≤ P.fogMaxY := by
      by_contra hgt
      push_neg at hgt
      have := h.2 hgt
      rw [← hy] at this
      linarith
    refine ⟨?_, Or.inr (clipRayEndpoints_inrange P s e hm hM (hy ▸ hm) (hy ▸ hM))⟩
    intro hc
    obtain ⟨-, hbranch⟩ := hc
    simp only [if_neg (not_lt.mpr hm), if_neg (not_lt.mpr (hy ▸ hm))] at hbranch
    rcases hbranch with hb | hb | hb | hb
    · exact absurd hb (not_lt.mpr hm)
    · exact absurd hb (not_lt.mpr (hy ▸ hm))
    · exact absurd hb (not_lt.mpr (hy ▸ hM))
    · exact absurd hb (not_lt.mpr hM)

/-- Witness for C7: a horizontal segment inside the default slab is returned
unchanged and no intersection parameter is computed. -/
theorem clip_horizontal_ray_no_division_witness :
    ¬clipComputesIntersection Pdefault ⟨0, 1, 0⟩ ⟨3, 1, 4⟩ ∧
      (clipRayEndpoints Pdefault ⟨0, 1, 0⟩ ⟨3, 1, 4⟩ = (⟨3, 1, 4⟩, ⟨3, 1, 4⟩) ∨
        clipRayEndpoints Pdefault ⟨0, 1, 0⟩ ⟨3, 1, 4⟩ = (⟨0, 1, 0⟩, ⟨3, 1, 4⟩)) :=
  clip_horizontal_ray_no_division Pdefault ⟨0, 1, 0⟩ ⟨3, 1, 4⟩ rfl

/-! ### Claim C8 -/

/-- Claim C8: the slab clipper is idempotent — re-clipping its own output
against the same bounds returns that output unchanged.  This needs no
assumption on the ordering of the bounds: when `fogMinY > fogMaxY` the first
pass always collapses the segment (the last two clamps move both endpoints
to the same point), and collapsed or in-slab segments are fixed points. -/
theorem clip_idempotent (P : FogParams) (s e : Vec3) :
    clipRayEndpoints P (clipRayEndpoints P s e).1 (clipRayEndpoints P s e).2 =
      clipRayEndpoints P s e := by
  rcases clipRayEndpoints_characterization P s e with hcol | ⟨h1, h2, h3, h4⟩
  · rw [hcol, clipRayEndpoints_self]
    exact Prod.ext hcol.symm rfl
  · rw [clipRayEndpoints_inrange P _ _ h1 h2 h3 h4]

/-! ### Claim C10 -/

/-- Claim C10: with `fogMinY ≤ fogMaxY`, clipping either collapses the
segment or returns endpoints whose heights both lie within
`[fogMinY, fogMaxY]`. -/
theorem clip_output_in_slab (P : FogParams) (s e : Vec3)
    (hmM : P.fogMinY ≤ P.fogMaxY) :
    (clipRayEndpoints P s e).1 = (clipRayEndpoints P s e).2 ∨
      (P.fogMinY ≤ (clipRayEndpoints P s e).1.y ∧
        (clipRayEndpoints P s e).1.y ≤ P.fogMaxY ∧
        P.fogMinY ≤ (clipRayEndpoints P s e).2.y ∧
        (clipRayEndpoints P s e).2.y ≤ P.fogMaxY) :=
  clipRayEndpoints_characterization P s e

/-- Witness for C10: the default bounds and a segment crossing the slab from
below. -/
theorem clip_output_in_slab_witness :
    (clipRayEndpoints Pdefault ⟨0, -50, 0⟩ ⟨0, 0, 0⟩).1 =
        (clipRayEndpoints Pdefault ⟨0, -50, 0⟩ ⟨0, 0, 0⟩).2 ∨
      (Pdefault.fogMinY ≤ (clipRayEndpoints Pdefault ⟨0, -50, 0⟩ ⟨0, 0, 0⟩).1.y ∧
        (clipRayEndpoints Pdefault ⟨0, -50, 0⟩ ⟨0, 0, 0⟩).1.y ≤ Pdefault.fogMaxY ∧
        Pdefault.fogMinY ≤ (clipRayEndpoints Pdefault ⟨0, -50, 0⟩ ⟨0, 0, 0⟩).2.y ∧
        (clipRayEndpoints Pdefault ⟨0, -50, 0⟩ ⟨0, 0, 0⟩).2.y ≤ Pdefault.fogMaxY) :=
  clip_output_in_slab Pdefault ⟨0, -50, 0⟩ ⟨0, 0, 0⟩ (by norm_num [Pdefault])

/-! ### Claim C9 -/

/-- Claim C9: with a positive fade-out range (and a positive fade exponent —
GLSL `pow(0, p)` is only defined for `p > 0`), the fade-out factor is `0` at
and above `fogMaxY` (so `sampleFogDensity` returns `0` there, the wind-drift
offset having no `y` component), and `1` at and below
`fogMaxY - fogFadeOutRangeY`. -/
theorem fadeOut_boundary_values (P : FogParams)
    (hr : 0 < P.fogFadeOutRangeY) (hp : 0 < P.fogFadeOutPow) :
    (∀ y : ℝ, P.fogMaxY ≤ y → computeFadeOutYFactor P y = 0) ∧
      (∀ (noiseTex : Vec3 → ℝ) (worldPos : Vec3), P.fogMaxY ≤ worldPos.y →
        sampleFogDensity P noiseTex worldPos = 0) ∧
      (∀ y : ℝ, y ≤ P.fogMaxY - P.fogFadeOutRangeY → computeFadeOutYFactor P y = 1) := by
  have hden : P.fogMaxY - (P.fogMaxY - P.fogFadeOutRangeY) = P.fogFadeOutRangeY := by
    ring
  have htop : ∀ y : ℝ, P.fogMaxY ≤ y → computeFadeOutYFactor P y = 0 := by
    intro y hy
    have hs : smoothstep (P.fogMaxY - P.fogFadeOutRangeY) P.fogMaxY y = 1 := by
      unfold smoothstep clampR
      rw [hden]
      have h1 : (1 : ℝ) ≤ (y - (P.fogMaxY - P.fogFadeOutRangeY)) / P.fogFadeOutRangeY := by
        rw [le_div_iff hr]
        linarith
      rw [max_eq_left (le_trans zero_le_one h1), min_eq_right h1]
      norm_num
    unfold computeFadeOutYFactor
    rw [hs, Real.one_rpow]
    ring
  refine ⟨htop, ?_, ?_⟩
  · intro noiseTex worldPos hy
    unfold sampleFogDensity
    have hwp : (worldPos + P.curTimeSeconds •
          (⟨P.noiseMovementPerSecondX, 0, P.noiseMovementPerSecondY⟩ : Vec3)).y
        = worldPos.y := by
      simp
    simp only [hwp]
    rw [htop worldPos.y hy, mul_zero]
  · intro y hy
    have hs : smoothstep (P.fogMaxY - P.fogFadeOutRangeY) P.fogMaxY y = 0 := by
      unfold smoothstep clampR
      rw [hden]
      have h0 : (y - (P.fogMaxY - P.fogFadeOutRangeY)) / P.fogFadeOutRangeY ≤ 0 := by
        apply div_nonpos_of_nonpos_of_nonneg _ (le_of_lt hr)
        linarith
      rw [max_eq_right h0, min_eq_left (by norm_num : (0:ℝ) ≤ 1)]
      ring
    unfold computeFadeOutYFactor
    rw [hs, Real.zero_rpow (ne_of_gt hp)]
    ring

/-- Witness for C9 at the default configuration: zero fade factor at the top
plane `4.4`, zero density above it, full fade factor at `2 ≤ 4.4 - 1.5`. -/
theorem fadeOut_boundary_values_witness :
    computeFadeOutYFactor Pdefault 4.4 = 0 ∧
      sampleFogDensity Pdefault noiseHalf ⟨0, 10, 0⟩ = 0 ∧
      computeFadeOutYFactor Pdefault 2 = 1 := by
  have h := fadeOut_boundary_values Pdefault (by norm_num [Pdefault]) (by norm_num [Pdefault])
  exact ⟨h.1 4.4 (by norm_num [Pdefault]),
    h.2.1 noiseHalf ⟨0, 10, 0⟩ (by norm_num [Pdefault]),
    h.2.2 2 (by norm_num [Pdefault])⟩

/-! ### Constant density field evaluation

Under `Pconst`-style parameters (noise bias `1`, noise exponent `1`, height
fog inert, fade-out band far above) and the constant noise texture
`noiseHalf`, the density field is identically `1` on the `y = 0` plane:
each octave contributes `0.5 * 2 - 1 = 0`, the bias survives the
`* 0.5 + 0.5` remap as `1`, and both modulation terms are inert. -/

theorem sampleFogDensity_eq_one (P : FogParams) (v : Vec3)
    (ht : P.curTimeSeconds = 0) (hb : P.noiseBias = 1) (hp : P.noisePow = 1)
    (hh : P.heightFogEndY = -1000) (hM : P.fogMaxY = 100)
    (hrange : P.fogFadeOutRangeY = 1) (hfp : P.fogFadeOutPow = 1) (hy : v.y = 0) :
    sampleFogDensity P noiseHalf v = 1 := by
  unfold sampleFogDensity sampleFogDensityLOD sampleFogFromNoise computeFadeOutYFactor
    smoothstep clampR noiseHalf
  simp only [ht, hb, hp, hh, hM, hrange, hfp, Vec3.add_y, Vec3.smul_y, hy]
  norm_num [Real.rpow_one]

/-! ### Claim C1 -/

/-- Claim C1: when the density field evaluates to the same constant
`k > 0.01` at every point of the marched ray, every loop iteration uses the
same step length `s = stepLengthOf P baseStepLength jitter` and contribution
factor `K = k * s * fogDensityMultiplier`; starting from accumulated density
`0`, after `n` iterations of the stepping loop the accumulated density is
exactly `1 - (1 - K)^n`. -/
theorem constantDensity_geometric_accumulation (P : FogParams)
    (noiseTex : Vec3 → ℝ) (startPos rayDir : Vec3)
    (baseStepLength jitter k : ℝ) (n : ℕ)
    (hconst : ∀ t : ℝ, sampleFogDensity P noiseTex (startPos + t • rayDir) = k)
    (hk : k > 0.01)
    (hK0 : 0 ≤ k * stepLengthOf P baseStepLength jitter * P.fogDensityMultiplier)
    (hK1 : k * stepLengthOf P baseStepLength jitter * P.fogDensityMultiplier ≤ 1) :
    ((marchBody P noiseTex startPos rayDir baseStepLength jitter)^[n]
        ⟨0, 0, 0, ⟨0, 0, 0⟩⟩).density =
      1 - (1 - k * stepLengthOf P baseStepLength jitter * P.fogDensityMultiplier) ^ n := by
  have hstep : ∀ st : MarchState,
      (marchBody P noiseTex startPos rayDir baseStepLength jitter st).density =
        st.density +
          k * stepLengthOf P baseStepLength jitter * P.fogDensityMultiplier *
            (1 - st.density) := by
    intro st
    simp only [marchBody, sampleOneStep]
    rw [hconst st.totalDistance, if_pos hk]
  induction n with
  | zero => simp
  | succ n ih =>
    rw [Function.iterate_succ_apply', hstep, ih]
    ring

/-- Witness for C1: constant density `1`, step length `1`, multiplier `0.5`,
so `K = 0.5`; after two iterations the accumulated density is
`1 - 0.5^2 = 3/4`. -/
theorem constantDensity_geometric_accumulation_witness :
    ((marchBody Pconst noiseHalf ⟨0, 0, 0⟩ ⟨1, 0, 0⟩ 1 0)^[2]
        ⟨0, 0, 0, ⟨0, 0, 0⟩⟩).density = 3 / 4 := by
  have h := constantDensity_geometric_accumulation Pconst noiseHalf ⟨0, 0, 0⟩ ⟨1, 0, 0⟩ 1 0 1 2
    (fun t => sampleFogDensity_eq_one Pconst _ rfl rfl rfl rfl rfl rfl rfl (by simp))
    (by norm_num)
    (by norm_num [stepLengthOf, Pconst])
    (by norm_num [stepLengthOf, Pconst])
  rw [h]
  norm_num [stepLengthOf, Pconst]

/-! ### Claim C2 -/

/-- Claim C2 (amended): the claim as frozen fails for configurations with a
negative `fogDensityMultiplier` or with per-step contributions above `1`
(see the counterexample).  Amended: provided every step contribution
`rawDensity * stepLength * fogDensityMultiplier` lies in `[0, 1]` whenever
the `rawDensity > 0.01` gate passes, and `maxDensity ≥ 1`, the accumulated
density never decreases across a loop iteration and stays within
`[0, maxDensity]` throughout the integration. -/
theorem accumulatedDensity_monotone_bounded (P : FogParams) (noiseTex : Vec3 → ℝ)
    (startPos rayDir : Vec3) (rayLength baseStepLength jitter : ℝ)
    (hK : ∀ t : ℝ,
      0.01 < sampleFogDensity P noiseTex (startPos + t • rayDir) →
      0 ≤ sampleFogDensity P noiseTex (startPos + t • rayDir) *
          stepLengthOf P baseStepLength jitter * P.fogDensityMultiplier ∧
        sampleFogDensity P noiseTex (startPos + t • rayDir) *
          stepLengthOf P baseStepLength jitter * P.fogDensityMultiplier ≤ 1)
    (hMax : 1 ≤ P.maxDensity) :
    (∀ st : MarchState, 0 ≤ st.density → st.density ≤ 1 →
      st.density ≤ (marchBody P noiseTex startPos rayDir baseStepLength jitter st).density ∧
        0 ≤ (marchBody P noiseTex startPos rayDir baseStepLength jitter st).density ∧
        (marchBody P noiseTex startPos rayDir baseStepLength jitter st).density ≤ 1) ∧
      ∀ st : MarchState, 0 ≤ st.density → st.density ≤ 1 →
        0 ≤ (marchLoop P noiseTex startPos rayDir rayLength baseStepLength jitter st).1.density ∧
          (marchLoop P noiseTex startPos rayDir rayLength baseStepLength jitter st).1.density ≤
            P.maxDensity := by
  have hbody : ∀ st : MarchState, 0 ≤ st.density → st.density ≤ 1 →
      st.density ≤ (marchBody P noiseTex startPos rayDir baseStepLength jitter st).density ∧
        0 ≤ (marchBody P noiseTex startPos rayDir baseStepLength jitter st).density ∧
        (marchBody P noiseTex startPos rayDir baseStepLength jitter st).density ≤ 1 := by
    intro st h0 h1
    simp only [marchBody, sampleOneStep]
    by_cases hg : sampleFogDensity P noiseTex (startPos + st.totalDistance • rayDir) > 0.01
    · rw [if_pos hg]
      dsimp only
      obtain ⟨hK0, hK1⟩ := hK st.totalDistance hg
      have hrem : (0 : ℝ) ≤ 1 - st.density := by linarith
      have hKpos := mul_nonneg hK0 hrem
      have hKle := mul_le_mul_of_nonneg_right hK1 hrem
      refine ⟨by linarith, by linarith, by linarith⟩
    · rw [if_neg hg]
      dsimp only
      exact ⟨le_refl _, h0, h1⟩
  refine ⟨hbody, ?_⟩
  have hloop : ∀ st : MarchState, 0 ≤ st.density → st.density ≤ 1 →
      0 ≤ (marchLoop P noiseTex startPos rayDir rayLength baseStepLength jitter st).1.density ∧
        (marchLoop P noiseTex startPos rayDir rayLength baseStepLength jitter st).1.density
          ≤ 1 := by
    intro st
    induction st using
      marchLoop.induct P noiseTex startPos rayDir rayLength baseStepLength jitter with
    | case1 st h1 h2 =>
      intro ha hb
      rw [marchLoop, if_pos h1, dif_pos h2]
      exact ⟨ha, hb⟩
    | case2 st h1 h2 st' hge =>
      intro ha hb
      rw [marchLoop, if_pos h1, dif_neg h2]
      have hge' : (marchBody P noiseTex startPos rayDir baseStepLength jitter st).density ≥
          P.maxDensity - 0.01 := hge
      rw [if_pos hge']
      obtain ⟨-, hb0, hb1⟩ := hbody st ha hb
      exact ⟨hb0, hb1⟩
    | case3 st h1 h2 st' hlt ih =>
      intro ha hb
      rw [marchLoop, if_pos h1, dif_neg h2]
      have hlt' : ¬(marchBody P noiseTex startPos rayDir baseStepLength jitter st).density ≥
          P.maxDensity - 0.01 := hlt
      rw [if_neg hlt']
      obtain ⟨-, hb0, hb1⟩ := hbody st ha hb
      exact ih hb0 hb1
    | case4 st h1 =>
      intro ha hb
      rw [marchLoop, if_neg h1]
      exact ⟨ha, hb⟩
  intro st ha hb
  obtain ⟨g0, g1⟩ := hloop st ha hb
  exact ⟨g0, le_trans g1 hMax⟩

/-- Witness for C2: the constant-density configuration, whose per-step
contribution is `1 * 1 * 0.5 = 0.5 ∈ [0, 1]`, instantiated at the initial
state. -/
theorem accumulatedDensity_monotone_bounded_witness :
    0 ≤ (marchLoop Pconst noiseHalf ⟨0, 0, 0⟩ ⟨1, 0, 0⟩ 5 1 0
        ⟨0, 0, 0, ⟨0, 0, 0⟩⟩).1.density ∧
      (marchLoop Pconst noiseHalf ⟨0, 0, 0⟩ ⟨1, 0, 0⟩ 5 1 0
        ⟨0, 0, 0, ⟨0, 0, 0⟩⟩).1.density ≤ Pconst.maxDensity := by
  have h := accumulatedDensity_monotone_bounded Pconst noiseHalf ⟨0, 0, 0⟩ ⟨1, 0, 0⟩ 5 1 0
    (fun t _ => by
      rw [sampleFogDensity_eq_one Pconst _ rfl rfl rfl rfl rfl rfl rfl (by simp)]
      norm_num [stepLengthOf, Pconst])
    (by norm_num [Pconst])
  exact h.2 ⟨0, 0, 0, ⟨0, 0, 0⟩⟩ (by norm_num) (by norm_num)

/-- Counterexample for C2 as frozen: with `fogDensityMultiplier = -1` (a
configuration nothing rejects), a single stepping-loop iteration takes the
accumulated density from `0` to `-5`, which both decreases and leaves
`[0, maxDensity]`. -/
theorem accumulatedDensity_bounds_counterexample :
    (marchLoop Pneg noiseHalf ⟨0, 0, 0⟩ ⟨1, 0, 0⟩ 5 5 0
      ⟨0, 0, 0, ⟨0, 0, 0⟩⟩).1.density < 0 := by
  have hd : (marchBody Pneg noiseHalf ⟨0, 0, 0⟩ ⟨1, 0, 0⟩ 5 0
      (⟨0, 0, 0, ⟨0, 0, 0⟩⟩ : MarchState)).density = -5 := by
    simp only [marchBody, sampleOneStep]
    rw [sampleFogDensity_eq_one Pneg _ rfl rfl rfl rfl rfl rfl rfl (by simp),
      if_pos (by norm_num : (1 : ℝ) > 0.01)]
    norm_num [stepLengthOf, Pneg, Pconst]
  have hdist : (marchBody Pneg noiseHalf ⟨0, 0, 0⟩ ⟨1, 0, 0⟩ 5 0
      (⟨0, 0, 0, ⟨0, 0, 0⟩⟩ : MarchState)).totalDistance = 5 := by
    simp only [marchBody]
    norm_num [stepLengthOf, Pneg, Pconst]
  rw [marchLoop,
    if_pos (show (⟨0, 0, 0, ⟨0, 0, 0⟩⟩ : MarchState).totalDistance < 5 by norm_num),
    dif_neg (show ¬(⟨0, 0, 0, ⟨0, 0, 0⟩⟩ : MarchState).totalIters >
      Pneg.maxRaymarchStepCount by norm_num [Pneg, Pconst]),
    if_neg (show ¬(marchBody Pneg noiseHalf ⟨0, 0, 0⟩ ⟨1, 0, 0⟩ 5 0
        (⟨0, 0, 0, ⟨0, 0, 0⟩⟩ : MarchState)).density ≥ Pneg.maxDensity - 0.01 by
      rw [hd]; norm_num [Pneg, Pconst]),
    marchLoop,
    if_neg (show ¬(marchBody Pneg noiseHalf ⟨0, 0, 0⟩ ⟨1, 0, 0⟩ 5 0
        (⟨0, 0, 0, ⟨0, 0, 0⟩⟩ : MarchState)).totalDistance < 5 by
      rw [hdist]; norm_num)]
  dsimp only
  rw [hd]
  norm_num

/-! ### Claim C5 -/

/-- Claim C5 (amended): the safety-valve check `totalIters >
maxRaymarchStepCount` runs before the increment, so the loop body can run
`maxRaymarchStepCount + 1` times (see the counterexample); the iteration
count of any integration that starts at `0` never exceeds
`maxRaymarchStepCount + 1`. -/
theorem iterationCount_le_cap_succ (P : FogParams) (noiseTex : Vec3 → ℝ)
    (startPos rayDir : Vec3) (rayLength baseStepLength jitter : ℝ)
    (st : MarchState) (h : st.totalIters = 0) :
    (marchLoop P noiseTex startPos rayDir rayLength baseStepLength jitter st).1.totalIters ≤
      P.maxRaymarchStepCount + 1 := by
  have inv : ∀ st : MarchState, st.totalIters ≤ P.maxRaymarchStepCount + 1 →
      (marchLoop P noiseTex startPos rayDir rayLength baseStepLength
          jitter st).1.totalIters ≤ P.maxRaymarchStepCount + 1 := by
    intro st
    induction st using
      marchLoop.induct P noiseTex startPos rayDir rayLength baseStepLength jitter with
    | case1 st h1 h2 =>
      intro hle
      rw [marchLoop, if_pos h1, dif_pos h2]
      exact hle
    | case2 st h1 h2 st' hge =>
      intro hle
      rw [marchLoop, if_pos h1, dif_neg h2]
      have hge' : (marchBody P noiseTex startPos rayDir baseStepLength jitter st).density ≥
          P.maxDensity - 0.01 := hge
      rw [if_pos hge']
      have hit : (marchBody P noiseTex startPos rayDir baseStepLength
          jitter st).totalIters = st.totalIters + 1 := rfl
      show (marchBody P noiseTex startPos rayDir baseStepLength jitter st).totalIters ≤
        P.maxRaymarchStepCount + 1
      omega
    | case3 st h1 h2 st' hlt ih =>
      intro hle
      rw [marchLoop, if_pos h1, dif_neg h2]
      have hlt' : ¬(marchBody P noiseTex startPos rayDir baseStepLength jitter st).density ≥
          P.maxDensity - 0.01 := hlt
      rw [if_neg hlt']
      apply ih
      have hit : st'.totalIters = st.totalIters + 1 := rfl
      omega
    | case4 st h1 =>
      intro hle
      rw [marchLoop, if_neg h1]
      exact hle
  exact inv st (by omega)

/-- Witness for C5 (amended): the constant-density configuration starting at
iteration count `0`. -/
theorem iterationCount_le_cap_succ_witness :
    (marchLoop Pconst noiseHalf ⟨0, 0, 0⟩ ⟨1, 0, 0⟩ 5 1 0
      ⟨0, 0, 0, ⟨0, 0, 0⟩⟩).1.totalIters ≤ Pconst.maxRaymarchStepCount + 1 :=
  iterationCount_le_cap_succ Pconst noiseHalf ⟨0, 0, 0⟩ ⟨1, 0, 0⟩ 5 1 0
    ⟨0, 0, 0, ⟨0, 0, 0⟩⟩ rfl

/-- Counterexample for C5 as frozen: with `maxRaymarchStepCount = 0` the
stepping loop still executes one iteration (the cap check precedes the
increment), so the executed iteration count `1` exceeds the cap `0`. -/
theorem iterationCount_cap_counterexample :
    Pcap.maxRaymarchStepCount <
      (marchLoop Pcap noiseHalf ⟨0, 0, 0⟩ ⟨1, 0, 0⟩ 5 5 0
        ⟨0, 0, 0, ⟨0, 0, 0⟩⟩).1.totalIters := by
  have hd : (marchBody Pcap noiseHalf ⟨0, 0, 0⟩ ⟨1, 0, 0⟩ 5 0
      (⟨0, 0, 0, ⟨0, 0, 0⟩⟩ : MarchState)).density = 0 := by
    simp only [marchBody, sampleOneStep]
    rw [sampleFogDensity_eq_one Pcap _ rfl rfl rfl rfl rfl rfl rfl (by simp),
      if_pos (by norm_num : (1 : ℝ) > 0.01)]
    norm_num [stepLengthOf, Pcap, Pconst]
  have hdist : (marchBody Pcap noiseHalf ⟨0, 0, 0⟩ ⟨1, 0, 0⟩ 5 0
      (⟨0, 0, 0, ⟨0, 0, 0⟩⟩ : MarchState)).totalDistance = 5 := by
    simp only [marchBody]
    norm_num [stepLengthOf, Pcap, Pconst]
  rw [marchLoop,
    if_pos (show (⟨0, 0, 0, ⟨0, 0, 0⟩⟩ : MarchState).totalDistance < 5 by norm_num),
    dif_neg (show ¬(⟨0, 0, 0, ⟨0, 0, 0⟩⟩ : MarchState).totalIters >
      Pcap.maxRaymarchStepCount by norm_num [Pcap, Pconst]),
    if_neg (show ¬(marchBody Pcap noiseHalf ⟨0, 0, 0⟩ ⟨1, 0, 0⟩ 5 0
        (⟨0, 0, 0, ⟨0, 0, 0⟩⟩ : MarchState)).density ≥ Pcap.maxDensity - 0.01 by
      rw [hd]; norm_num [Pcap, Pconst]),
    marchLoop,
    if_neg (show ¬(marchBody Pcap noiseHalf ⟨0, 0, 0⟩ ⟨1, 0, 0⟩ 5 0
        (⟨0, 0, 0, ⟨0, 0, 0⟩⟩ : MarchState)).totalDistance < 5 by
      rw [hdist]; norm_num)]
  dsimp only
  have hit : (marchBody Pcap noiseHalf ⟨0, 0, 0⟩ ⟨1, 0, 0⟩ 5 0
      (⟨0, 0, 0, ⟨0, 0, 0⟩⟩ : MarchState)).totalIters = 1 := rfl
  rw [hit]
  norm_num [Pcap, Pconst]

/-! ### Claim C4 -/

/-- Evaluation of the clipper for the C4 scenario: slab `[0, 10]`, ray from
`(0,-10,0)` up to `(0,5,0)`; the start point is clamped to the bottom
plane. -/
theorem clipRayEndpoints_Pclip_eval :
    clipRayEndpoints Pclip ⟨0, -10, 0⟩ ⟨0, 5, 0⟩ = (⟨0, 0, 0⟩, ⟨0, 5, 0⟩) := by
  have hnorm : normalizeV ((⟨0, 5, 0⟩ : Vec3) - ⟨0, -10, 0⟩) = ⟨0, 1, 0⟩ := by
    rw [show (⟨0, 5, 0⟩ : Vec3) - ⟨0, -10, 0⟩ = ⟨0, 15, 0⟩ by norm_num [Vec3.mk.injEq]]
    exact normalizeV_y_axis 15 (by norm_num)
  rw [clipRayEndpoints, if_neg (by norm_num [Pclip, Pconst])]
  rw [clipSegment]
  rw [hnorm]
  norm_num [Pclip, Pconst, rayAt, intersectRayXZPlane, Vec3.mk.injEq, Prod.mk.injEq]

/-- Claim C4 is a bug in the code: the shader's own comment says the
compensation is based on "the length of the unclipped ray", and the spec
repeats that, but `rayLength` is only computed *after* `clipRayEndpoints`
has run, so the code uses the clipped length.  For the slab `[0, 10]` and the
ray `(0,-10,0) → (0,5,0)` (unclipped length `15`, clipped length `5`), the
cap the code uses is `300 + min(5 * 0.2, 1500) = 301`, while the documented
formula gives `300 + min(15 * 0.2, 1500) = 303`. -/
theorem maxRayLength_uses_clipped_length :
    (marchRun Pclip noiseHalf 0.5 ⟨0, -10, 0⟩ ⟨0, 5, 0⟩).maxRayLength = 301 ∧
      Pclip.baseMaxRayLength +
        min (lengthV ((⟨0, 5, 0⟩ : Vec3) - ⟨0, -10, 0⟩) * 0.2) 1500 = 303 := by
  constructor
  · simp only [marchRun]
    rw [clipRayEndpoints_Pclip_eval]
    dsimp only
    rw [if_neg (show ¬(⟨0, 0, 0⟩ : Vec3) = ⟨0, 5, 0⟩ by simp [Vec3.mk.injEq])]
    rw [show (⟨0, 5, 0⟩ : Vec3) - ⟨0, 0, 0⟩ = ⟨0, 5, 0⟩ by norm_num [Vec3.mk.injEq]]
    rw [lengthV_y_axis 5 (by norm_num)]
    rw [apply_ite MarchOutcome.maxRayLength]
    simp only [ite_self]
    norm_num [Pclip, Pconst]
  · rw [show (⟨0, 5, 0⟩ : Vec3) - ⟨0, -10, 0⟩ = ⟨0, 15, 0⟩ by norm_num [Vec3.mk.injEq]]
    rw [lengthV_y_axis 15 (by norm_num)]
    norm_num [Pclip, Pconst]

/-! ### Claim C6 -/

/-- Claim C6 (amended): the jitter term `jitter * 0.2` with
`jitter = (blueNoiseSample - 0.5) * 0.1` can subtract up to `0.01` from the
step length (see the counterexample), so the guarantee the code actually
provides is `stepLength ≥ minStepLength - 0.01` for every blue-noise sample
in `[0, 1]`. -/
theorem stepLength_ge_min_sub_tolerance (P : FogParams)
    (baseStepLength blueNoiseSample : ℝ)
    (h0 : 0 ≤ blueNoiseSample) (h1 : blueNoiseSample ≤ 1) :
    P.minStepLength - 0.01 ≤ stepLengthOf P baseStepLength (jitterOf blueNoiseSample) := by
  unfold stepLengthOf jitterOf
  have hmax : P.minStepLength ≤ max baseStepLength P.minStepLength := le_max_right _ _
  have hexp : (blueNoiseSample - 0.5) * 0.1 * 0.2 =
      0.02 * blueNoiseSample - 0.01 := by ring
  linarith

/-- Witness for C6 (amended) at `Pmin` with a zero blue-noise sample. -/
theorem stepLength_ge_min_sub_tolerance_witness :
    Pmin.minStepLength - 0.01 ≤ stepLengthOf Pmin (1 / 10) (jitterOf 0) :=
  stepLength_ge_min_sub_tolerance Pmin (1 / 10) 0 le_rfl zero_le_one

/-- Counterexample for C6 as frozen: `minStepLength = 0.2`, a short in-slab
ray of length `0.1` with `baseRaymarchStepCount = 1`, and blue-noise sample
`0`.  The single loop iteration advances `totalDistance` by exactly the step
length it used, `max(0.1, 0.2) + (-0.05) * 0.2 = 0.19 < minStepLength`. -/
theorem stepLength_below_min_counterexample :
    (marchRun Pmin noiseHalf 0 ⟨0, 0, 0⟩ ⟨1 / 10, 0, 0⟩).state.totalIters = 1 ∧
      (marchRun Pmin noiseHalf 0 ⟨0, 0, 0⟩ ⟨1 / 10, 0, 0⟩).state.totalDistance <
        Pmin.minStepLength := by
  have hb6 : marchBody Pmin noiseHalf ⟨-(1 / 20), 0, 0⟩ ⟨1, 0, 0⟩ (1 / 10) (-(1 / 20))
      (⟨0, 0, 0, ⟨0, 0, 0⟩⟩ : MarchState) = ⟨0, 19 / 100, 1, ⟨0, 0, 0⟩⟩ := by
    simp only [marchBody, sampleOneStep, stepLengthOf]
    rw [sampleFogDensity_eq_one Pmin _ rfl rfl rfl rfl rfl rfl rfl (by simp),
      if_pos (by norm_num : (1 : ℝ) > 0.01)]
    norm_num [Pmin, Pconst, MarchState.mk.injEq, Vec3.mk.injEq]
  have hloop6 : marchLoop Pmin noiseHalf ⟨-(1 / 20), 0, 0⟩ ⟨1, 0, 0⟩ (1 / 10) (1 / 10)
      (-(1 / 20)) (⟨0, 0, 0, ⟨0, 0, 0⟩⟩ : MarchState) =
      (⟨0, 19 / 100, 1, ⟨0, 0, 0⟩⟩, false) := by
    rw [marchLoop,
      if_pos (show (⟨0, 0, 0, ⟨0, 0, 0⟩⟩ : MarchState).totalDistance < 1 / 10 by norm_num),
      dif_neg (show ¬(⟨0, 0, 0, ⟨0, 0, 0⟩⟩ : MarchState).totalIters >
        Pmin.maxRaymarchStepCount by norm_num [Pmin, Pconst]),
      hb6,
      if_neg (show ¬(⟨0, 19 / 100, 1, ⟨0, 0, 0⟩⟩ : MarchState).density ≥
        Pmin.maxDensity - 0.01 by norm_num [Pmin, Pconst]),
      marchLoop,
      if_neg (show ¬(⟨0, 19 / 100, 1, ⟨0, 0, 0⟩⟩ : MarchState).totalDistance < 1 / 10 by
        norm_num)]
  have hrun : (marchRun Pmin noiseHalf 0 ⟨0, 0, 0⟩ ⟨1 / 10, 0, 0⟩).state =
      ⟨0, 19 / 100, 1, ⟨0, 0, 0⟩⟩ := by
    simp only [marchRun]
    rw [clipRayEndpoints_inrange Pmin ⟨0, 0, 0⟩ ⟨1 / 10, 0, 0⟩
      (by norm_num [Pmin, Pconst]) (by norm_num [Pmin, Pconst])
      (by norm_num [Pmin, Pconst]) (by norm_num [Pmin, Pconst])]
    dsimp only
    rw [if_neg (show ¬(⟨0, 0, 0⟩ : Vec3) = ⟨1 / 10, 0, 0⟩ by simp [Vec3.mk.injEq])]
    rw [show (⟨1 / 10, 0, 0⟩ : Vec3) - ⟨0, 0, 0⟩ = ⟨1 / 10, 0, 0⟩ by
      norm_num [Vec3.mk.injEq]]
    rw [normalizeV_x_axis (1 / 10) (by norm_num), lengthV_x_axis (1 / 10) (by norm_num)]
    rw [if_neg (show ¬(1 : ℝ) / 10 >
      Pmin.baseMaxRayLength + min (1 / 10 * 0.2) 1500 by norm_num [Pmin, Pconst])]
    rw [show (1 : ℝ) / 10 / (Pmin.baseRaymarchStepCount : ℝ) = 1 / 10 by
      norm_num [Pmin, Pconst]]
    rw [show jitterOf 0 = -(1 / 20) by norm_num [jitterOf]]
    rw [show (⟨0, 0, 0⟩ : Vec3) + (-(1 / 20) : ℝ) • ⟨1, 0, 0⟩ = ⟨-(1 / 20), 0, 0⟩ by
      norm_num [Vec3.mk.injEq]]
    rw [hloop6]
    simp
  rw [hrun]
  norm_num [Pmin, Pconst]

end
